import Mathlib

/-!
Verification of the GPS uphill-detection pipeline
(source: src/gps_uphill_detection.py).

Shallow embedding conventions:
* one GPS fix (class GPSREC) is a structure; numeric float fields are
  modelled as rationals, real arithmetic enters only inside the haversine
  distance computation (math.sin, math.cos, math.atan2, math.sqrt,
  math.radians), which is modelled over the reals;
* timestamps (datetime.time values, time of day) are modelled as rational
  numbers of seconds since midnight, which is exactly the quantity the code
  extracts via datetime.combine / timedelta.total_seconds();
* the Python dict used by clean_gga_data (insertion-ordered, value updated
  in place on key reassignment) is modelled as an association list;
* the in-place mutation of the uphill flag is modelled functionally: each
  pass maps the list of fixes to a new list whose records agree with the
  input on every field except possibly uphill.
-/

/-- Model of class GPSREC: one GPS observation.  Mirrors the constructor
GPSREC(timestamp, longitude, latitude, altitude, uphill=False). -/
structure GPSREC where
  timestamp : ℚ
  longitude : ℚ
  latitude : ℚ
  altitude : ℚ
  uphill : Bool := false
deriving DecidableEq, Repr

/-- Default record used only as the fallback of List.getD in statements;
its uphill flag is false. -/
def defaultFix : GPSREC :=
  { timestamp := 0, longitude := 0, latitude := 0, altitude := 0, uphill := false }

/-- The record with its mutable classification flag cleared; used to model
the in-place writes point.uphill = False. -/
def clearUphill (p : GPSREC) : GPSREC := { p with uphill := false }

/-- The immutable part of a record: every field except the uphill flag. -/
def fixCore (r : GPSREC) : ℚ × ℚ × ℚ × ℚ :=
  (r.timestamp, r.longitude, r.latitude, r.altitude)

/-! ### Deduplicator: clean_gga_data (source lines 71-95) -/

/-- Lookup in the association list modelling the Python dict
coordinates[(longitude, latitude)]. -/
def findCoord (key : ℚ × ℚ) : List ((ℚ × ℚ) × GPSREC) → Option GPSREC
  | [] => none
  | (k, v) :: t => if k = key then some v else findCoord key t

/-- Assignment coordinates[key] = v on the insertion-ordered dict model:
update in place when the key is present, append otherwise. -/
def dictInsert (key : ℚ × ℚ) (v : GPSREC) :
    List ((ℚ × ℚ) × GPSREC) → List ((ℚ × ℚ) × GPSREC)
  | [] => [(key, v)]
  | (k, w) :: t => if k = key then (k, v) :: t else (k, w) :: dictInsert key v t

/-- Constant minimum_elapsed_time = 120 (seconds), source line 81. -/
def minimum_elapsed_time : ℚ := 120

/-- One iteration of the loop body of clean_gga_data (source lines 82-93).
The elapsed time abs(d1 - d2).total_seconds() between two same-day
datetimes built from the two time-of-day values is the absolute difference
of the timestamps in seconds. -/
def clean_step (coordinates : List ((ℚ × ℚ) × GPSREC)) (coord : GPSREC) :
    List ((ℚ × ℚ) × GPSREC) :=
  match findCoord (coord.longitude, coord.latitude) coordinates with
  | none => dictInsert (coord.longitude, coord.latitude) coord coordinates
  | some record =>
    if |record.timestamp - coord.timestamp| > minimum_elapsed_time then
      dictInsert (coord.longitude, coord.latitude) coord coordinates
    else coordinates

/-- Model of clean_gga_data (source lines 71-95): fold the loop body over
the input, then return coordinates.values() in key-insertion order. -/
def clean_gga_data (data : List GPSREC) : List GPSREC :=
  (data.foldl clean_step []).map Prod.snd

/-! ### Distance Calculator: get_distance_between_locations (source lines 98-119) -/

/-- Model of math.radians: degrees to radians. -/
noncomputable def radians (x : ℚ) : ℝ := (x : ℝ) * Real.pi / 180

/-- Model of math.atan2 over the reals: the argument of the complex number
with real part x and imaginary part y, valued in (-pi, pi], with
atan2 0 0 = 0 exactly as in the C library convention. -/
noncomputable def atan2 (y x : ℝ) : ℝ := Complex.arg ⟨x, y⟩

/-- Model of get_distance_between_locations (source lines 98-119): the
haversine great-circle distance in kilometers between the two records'
coordinates, Earth radius 6371.0 km. -/
noncomputable def get_distance_between_locations (point1 point2 : GPSREC) : ℝ :=
  let lat1 := radians point1.latitude
  let lon1 := radians point1.longitude
  let lat2 := radians point2.latitude
  let lon2 := radians point2.longitude
  let dlat := lat2 - lat1
  let dlon := lon2 - lon1
  let a := Real.sin (dlat / 2) ^ 2 +
    Real.cos lat1 * Real.cos lat2 * Real.sin (dlon / 2) ^ 2
  let c := 2 * atan2 (Real.sqrt a) (Real.sqrt (1 - a))
  let km_earth_radius : ℝ := 6371.0
  km_earth_radius * c

/-! ### Uphill Classifier: detect_uphill (source lines 122-169) -/

/-- Model of the key function sort_by_timestamp (source lines 131-132). -/
def sort_by_timestamp (record : GPSREC) : ℚ := record.timestamp

/-- Boolean comparison used to model Python sorted(data, key=sort_by_timestamp)
(a stable sort on the timestamp key). -/
def tsLE (a b : GPSREC) : Bool := decide (sort_by_timestamp a ≤ sort_by_timestamp b)

/-- Model of sorted(data, key=sort_by_timestamp) (source line 134): a stable
merge sort on the timestamp key. -/
def sortedByTimestamp (data : List GPSREC) : List GPSREC := data.mergeSort tsLE

/-- Constant point_to_point_elevation_threshold = 0.3 (source line 135). -/
def point_to_point_elevation_threshold : ℚ := 0.3

/-- Pass 1 of detect_uphill (source lines 136-141): for each index i with
i + 1 < len, set uphill on record i when the next altitude exceeds it by at
least the threshold, and otherwise leave the flag unchanged (the loop never
writes False). -/
def pass1 : List GPSREC → List GPSREC
  | [] => []
  | [r] => [r]
  | r :: s :: rest =>
    (if s.altitude - r.altitude ≥ point_to_point_elevation_threshold then
      { r with uphill := true }
    else r) :: pass1 (s :: rest)

/-- Constant significant_distance_of_elevation_threshold = 10.0 meters
(source line 150). -/
noncomputable def significant_distance_of_elevation_threshold : ℝ := 10.0

open Classical in
/-- Flush of a completed segment (source lines 159-166): the distance
between segment[0] and segment[-1] is converted to meters (times 1000); if
it is below the significance threshold every record of the segment has its
uphill flag reset to False, otherwise the segment is left unchanged.  The
source line 159 sorted(segment, key=sort_by_timestamp) discards its result,
so it is a no-op and is not modelled. -/
noncomputable def flushSeg : List GPSREC → List GPSREC
  | [] => []
  | s :: t =>
    if get_distance_between_locations s ((s :: t).getLast (List.cons_ne_nil s t)) * 1000 <
        significant_distance_of_elevation_threshold then
      (s :: t).map clearUphill
    else s :: t

/-- Pass 2 of detect_uphill (source lines 151-168): scan the flagged list
accumulating consecutive uphill records into segment; on a record whose
flag is False, flush the accumulated segment (a no-op when it is empty,
matching the continue on line 157) and emit the record; when the input is
exhausted the still-open segment is returned as is — the source loop has no
end-of-sequence flush. -/
noncomputable def pass2go : List GPSREC → List GPSREC → List GPSREC
  | segment, [] => segment
  | segment, r :: rest =>
    if r.uphill then pass2go (segment ++ [r]) rest
    else flushSeg segment ++ r :: pass2go [] rest

/-- Model of detect_uphill (source lines 122-169): sort by timestamp, run
pass 1 (altitude-delta flagging) then pass 2 (segment significance
filtering), and return the resulting list. -/
noncomputable def detect_uphill (data : List GPSREC) : List GPSREC :=
  pass2go [] (pass1 (sortedByTimestamp data))

/-! ### Basic facts about the distance model -/

lemma radians_zero : radians 0 = 0 := by simp [radians]

lemma radians_180 : radians 180 = Real.pi := by
  rw [radians]; push_cast; ring

lemma atan2_zero_one : atan2 0 1 = 0 := by
  have h : (⟨1, 0⟩ : ℂ) = 1 := Complex.ext (by simp) (by simp)
  rw [atan2, h, Complex.arg_one]

lemma atan2_one_zero : atan2 1 0 = Real.pi / 2 := by
  have h : (⟨0, 1⟩ : ℂ) = Complex.I := Complex.ext (by simp) (by simp)
  rw [atan2, h, Complex.arg_I]

lemma dist_self_coords (p q : GPSREC) (hlat : p.latitude = q.latitude)
    (hlon : p.longitude = q.longitude) :
    get_distance_between_locations p q = 0 := by
  simp only [get_distance_between_locations, hlat, hlon, sub_self]
  norm_num [atan2_zero_one]

lemma dist_symm (A B : GPSREC) :
    get_distance_between_locations A B = get_distance_between_locations B A := by
  simp only [get_distance_between_locations]
  have e1 : radians A.latitude - radians B.latitude =
      -(radians B.latitude - radians A.latitude) := by ring
  have e2 : radians A.longitude - radians B.longitude =
      -(radians B.longitude - radians A.longitude) := by ring
  have hs : ∀ x : ℝ, Real.sin (-x / 2) ^ 2 = Real.sin (x / 2) ^ 2 := fun x => by
    rw [neg_div, Real.sin_neg]; ring
  rw [e1, e2, hs, hs,
    mul_comm (Real.cos (radians B.latitude)) (Real.cos (radians A.latitude))]

lemma dist_antipodal (p q : GPSREC) (h1 : p.latitude = 0) (h2 : p.longitude = 0)
    (h3 : q.latitude = 0) (h4 : q.longitude = 180) :
    get_distance_between_locations p q = 6371 * Real.pi := by
  simp only [get_distance_between_locations, h1, h2, h3, h4, radians_zero, radians_180]
  norm_num [Real.sin_pi_div_two, atan2_one_zero]
  ring

/-- Spec-side definition for the refinement claim about the Distance
Calculator, written from the words of spec section 4.2: convert both
points' latitude/longitude to radians; dlat, dlon are the differences;
a = sin^2(dlat/2) + cos(lat1) cos(lat2) sin^2(dlon/2);
c = 2 atan2(sqrt a, sqrt (1 - a)); distance = 6371.0 c. -/
noncomputable def haversine_spec (point1 point2 : GPSREC) : ℝ :=
  6371.0 * (2 * atan2
    (Real.sqrt (Real.sin ((radians point2.latitude - radians point1.latitude) / 2) ^ 2 +
      Real.cos (radians point1.latitude) * Real.cos (radians point2.latitude) *
        Real.sin ((radians point2.longitude - radians point1.longitude) / 2) ^ 2))
    (Real.sqrt (1 - (Real.sin ((radians point2.latitude - radians point1.latitude) / 2) ^ 2 +
      Real.cos (radians point1.latitude) * Real.cos (radians point2.latitude) *
        Real.sin ((radians point2.longitude - radians point1.longitude) / 2) ^ 2))))

/-- The antipodal pair used in concrete evaluations is significant: its
distance in meters is not below the 10.0 meter threshold. -/
lemma antipodal_not_small :
    ¬ 6371 * Real.pi * 1000 < significant_distance_of_elevation_threshold := by
  rw [significant_distance_of_elevation_threshold]
  push_neg
  nlinarith [Real.pi_gt_three]

/-- A zero-distance pair is insignificant: it is below the 10.0 meter
threshold after conversion to meters. -/
lemma zero_dist_small :
    (0 : ℝ) * 1000 < significant_distance_of_elevation_threshold := by
  rw [significant_distance_of_elevation_threshold]; norm_num

/-- Claim C6: the Distance Calculator returns exactly the haversine
great-circle distance with Earth radius 6371.0 km, per the formula of spec
section 4.2; in this embedding it is a total pure function on pairs of
records, with no side effects and no error cases. -/
theorem claim_C6_distance_formula (point1 point2 : GPSREC) :
    get_distance_between_locations point1 point2 = haversine_spec point1 point2 := rfl

/-- Claim C9: the Distance Calculator is symmetric in its two arguments,
and the distance from any point to itself is zero. -/
theorem claim_C9_distance_symm_self :
    (∀ A B : GPSREC, get_distance_between_locations A B =
      get_distance_between_locations B A) ∧
    (∀ A : GPSREC, get_distance_between_locations A A = 0) :=
  ⟨dist_symm, fun A => dist_self_coords A A rfl rfl⟩

/-! ### Deduplicator lemmas -/

lemma findCoord_dictInsert (key : ℚ × ℚ) (v : GPSREC) (m : List ((ℚ × ℚ) × GPSREC)) :
    findCoord key (dictInsert key v m) = some v := by
  induction m with
  | nil => simp [dictInsert, findCoord]
  | cons p t ih =>
    obtain ⟨k, w⟩ := p
    by_cases hk : k = key
    · simp [dictInsert, hk, findCoord]
    · simp [dictInsert, hk, findCoord, ih]

lemma findCoord_eq_none_iff (key : ℚ × ℚ) (m : List ((ℚ × ℚ) × GPSREC)) :
    findCoord key m = none ↔ key ∉ m.map Prod.fst := by
  induction m with
  | nil => simp [findCoord]
  | cons p t ih =>
    obtain ⟨k, w⟩ := p
    by_cases hk : k = key
    · simp [findCoord, hk]
    · simp [findCoord, hk, ih, Ne.symm hk]

lemma dictInsert_map_fst_of_mem (key : ℚ × ℚ) (v : GPSREC) (m : List ((ℚ × ℚ) × GPSREC))
    (hk : key ∈ m.map Prod.fst) :
    (dictInsert key v m).map Prod.fst = m.map Prod.fst := by
  induction m with
  | nil => simp at hk
  | cons p t ih =>
    obtain ⟨k, w⟩ := p
    by_cases h : k = key
    · simp [dictInsert, h]
    · simp only [List.map_cons, List.mem_cons] at hk
      rcases hk with hk | hk
    
      · exact absurd hk.symm h
      · simp [dictInsert, h, ih hk]

lemma dictInsert_map_fst_of_not_mem (key : ℚ × ℚ) (v : GPSREC) (m : List ((ℚ × ℚ) × GPSREC))
    (hk : key ∉ m.map Prod.fst) :
    (dictInsert key v m).map Prod.fst = m.map Prod.fst ++ [key] := by
  induction m with
  | nil => simp [dictInsert]
  | cons p t ih =>
    obtain ⟨k, w⟩ := p
    simp only [List.map_cons, List.mem_cons] at hk
    push_neg at hk
    simp [dictInsert, Ne.symm hk.1, ih hk.2]

lemma mem_dictInsert (key : ℚ × ℚ) (v : GPSREC) :
    ∀ (m : List ((ℚ × ℚ) × GPSREC)) (p : (ℚ × ℚ) × GPSREC),
      p ∈ dictInsert key v m → p = (key, v) ∨ p ∈ m
  | [], p, hp => by simpa [dictInsert] using hp
  | (k, w) :: t, p, hp => by
    by_cases h : k = key
    · subst h
      simp only [dictInsert, if_pos rfl, if_true, List.mem_cons] at hp
      rcases hp with hp | hp
      · exact Or.inl hp
      · exact Or.inr (List.mem_cons_of_mem _ hp)
    · simp only [dictInsert, if_neg h, List.mem_cons] at hp
      rcases hp with hp | hp
      · exact Or.inr (by simp [hp])
      · rcases mem_dictInsert key v t p hp with h2 | h2
        · exact Or.inl h2
        · exact Or.inr (List.mem_cons_of_mem _ h2)

/-- Invariant of the dict state of clean_gga_data: the keys are distinct and
every stored record has exactly its own coordinates as key. -/
def goodMap (m : List ((ℚ × ℚ) × GPSREC)) : Prop :=
  (m.map Prod.fst).Nodup ∧ ∀ p ∈ m, (p.2.longitude, p.2.latitude) = p.1

lemma goodMap_dictInsert (m : List ((ℚ × ℚ) × GPSREC)) (c : GPSREC) (hm : goodMap m) :
    goodMap (dictInsert (c.longitude, c.latitude) c m) := by
  obtain ⟨h1, h2⟩ := hm
  constructor
  · by_cases hk : (c.longitude, c.latitude) ∈ m.map Prod.fst
    · rw [dictInsert_map_fst_of_mem _ _ _ hk]; exact h1
    · rw [dictInsert_map_fst_of_not_mem _ _ _ hk]
      simpa [List.nodup_append, hk] using h1
  · intro p hp
    rcases mem_dictInsert _ _ _ _ hp with h | h
    · subst h; rfl
    · exact h2 p h

lemma goodMap_clean_step (m : List ((ℚ × ℚ) × GPSREC)) (c : GPSREC) (hm : goodMap m) :
    goodMap (clean_step m c) := by
  rw [clean_step]
  rcases hfc : findCoord (c.longitude, c.latitude) m with _ | r
  · exact goodMap_dictInsert m c hm
  · dsimp only
    by_cases ht : |r.timestamp - c.timestamp| > minimum_elapsed_time
    · rw [if_pos ht]; exact goodMap_dictInsert m c hm
    · rw [if_neg ht]; exact hm

lemma goodMap_foldl (data : List GPSREC) :
    ∀ m, goodMap m → goodMap (data.foldl clean_step m) := by
  induction data with
  | nil => intro m hm; simpa using hm
  | cons c t ih =>
    intro m hm
    rw [List.foldl_cons]
    exact ih _ (goodMap_clean_step m c hm)

/-- Claim C5: the Deduplicator's output never contains two fixes with the
same (longitude, latitude) pair, and the empty input yields the empty
output. -/
theorem claim_C5_dedup_unique :
    (∀ data : List GPSREC, (clean_gga_data data).Pairwise
      fun a b => (a.longitude, a.latitude) ≠ (b.longitude, b.latitude)) ∧
    clean_gga_data [] = [] := by
  constructor
  · intro data
    obtain ⟨h1, h2⟩ := goodMap_foldl data [] ⟨List.nodup_nil, by simp⟩
    rw [clean_gga_data, List.pairwise_map]
    rw [List.Nodup, List.pairwise_map] at h1
    exact h1.imp_of_mem fun {p q} hp hq hne => by
      rw [h2 p hp, h2 q hq]; exact hne
  · rfl

/-- Claim C4: during deduplication, when a fix arrives whose coordinate
pair is already in the dict with retained record r, the dict is unchanged
when the absolute time-of-day difference is at most 120 seconds (the first
fix is kept, the new one discarded), and the new fix replaces the retained
one when the difference exceeds 120 seconds. -/
theorem claim_C4_dedup_retention (m : List ((ℚ × ℚ) × GPSREC)) (coord r : GPSREC)
    (h : findCoord (coord.longitude, coord.latitude) m = some r) :
    (|r.timestamp - coord.timestamp| ≤ 120 → clean_step m coord = m) ∧
    (|r.timestamp - coord.timestamp| > 120 →
      findCoord (coord.longitude, coord.latitude) (clean_step m coord) = some coord) := by
  constructor
  · intro hle
    rw [clean_step, h]
    dsimp only
    rw [if_neg (by rw [minimum_elapsed_time]; exact not_lt.mpr hle)]
  · intro hgt
    rw [clean_step, h]
    dsimp only
    rw [if_pos (by rw [minimum_elapsed_time]; exact hgt)]
    exact findCoord_dictInsert _ _ _

/-- Witness for claim C4 at concrete inputs: a same-coordinate fix 100
seconds apart is discarded, and one 200 seconds apart replaces the
retained record. -/
theorem claim_C4_witness :
    clean_step [((5, 6), ⟨0, 5, 6, 0, false⟩)] ⟨100, 5, 6, 50, false⟩ =
      [((5, 6), ⟨0, 5, 6, 0, false⟩)] ∧
    findCoord (5, 6) (clean_step [((5, 6), ⟨0, 5, 6, 0, false⟩)] ⟨200, 5, 6, 50, false⟩) =
      some ⟨200, 5, 6, 50, false⟩ :=
  ⟨(claim_C4_dedup_retention _ ⟨100, 5, 6, 50, false⟩ ⟨0, 5, 6, 0, false⟩ (by decide)).1
      (by norm_num),
   (claim_C4_dedup_retention _ ⟨200, 5, 6, 50, false⟩ ⟨0, 5, 6, 0, false⟩ (by decide)).2
      (by norm_num)⟩

/-! ### Pass 1 lemmas -/

/-- The per-step ascent condition of pass 1 at index i of a list: a
successor exists and its altitude exceeds the current one by at least the
0.3 threshold. -/
def riseCond (l : List GPSREC) (i : ℕ) : Prop :=
  i + 1 < l.length ∧
    (l.getD (i + 1) defaultFix).altitude - (l.getD i defaultFix).altitude ≥
      point_to_point_elevation_threshold

instance (l : List GPSREC) (i : ℕ) : Decidable (riseCond l i) := by
  unfold riseCond; infer_instance

lemma pass1_getD : ∀ (l : List GPSREC) (i : ℕ),
    (pass1 l).getD i defaultFix =
      if riseCond l i then { l.getD i defaultFix with uphill := true }
      else l.getD i defaultFix
  | [], i => by simp [pass1, riseCond]
  | [r], i => by
    simp only [pass1]
    rw [if_neg (by simp [riseCond])]
  | r :: s :: rest, 0 => by
    by_cases hc : s.altitude - r.altitude ≥ point_to_point_elevation_threshold
    · simp only [pass1, if_pos hc, List.getD_cons_zero]
      rw [if_pos ⟨by simp, by simpa using hc⟩]
    · simp only [pass1, if_neg hc, List.getD_cons_zero]
      rw [if_neg fun hr => hc (by simpa using hr.2)]
  | r :: s :: rest, i + 1 => by
    simp only [pass1, List.getD_cons_succ]
    rw [pass1_getD (s :: rest) i]
    have hiff : riseCond (s :: rest) i ↔ riseCond (r :: s :: rest) (i + 1) := by
      unfold riseCond
      simp only [List.length_cons, List.getD_cons_succ]
      exact ⟨fun hh => ⟨by omega, hh.2⟩, fun hh => ⟨by omega, hh.2⟩⟩
    exact if_congr hiff rfl rfl

lemma pass1_map_fixCore : ∀ l : List GPSREC, (pass1 l).map fixCore = l.map fixCore
  | [] => rfl
  | [r] => rfl
  | r :: s :: rest => by
    simp only [pass1, List.map_cons]
    rw [pass1_map_fixCore (s :: rest)]
    congr 1
    split <;> rfl

lemma pass1_length (l : List GPSREC) : (pass1 l).length = l.length := by
  have := congrArg List.length (pass1_map_fixCore l)
  simpa using this

lemma getD_uphill_false (l : List GPSREC) (h : ∀ r ∈ l, r.uphill = false) (i : ℕ) :
    (l.getD i defaultFix).uphill = false := by
  by_cases hi : i < l.length
  · rw [List.getD_eq_getElem _ _ hi]
    exact h _ (List.getElem_mem hi)
  · rw [List.getD_eq_default _ _ (not_lt.mp hi)]
    rfl

lemma sortedByTimestamp_uphill_false (data : List GPSREC)
    (h : ∀ r ∈ data, r.uphill = false) :
    ∀ r ∈ sortedByTimestamp data, r.uphill = false := by
  intro r hr
  exact h r ((List.mem_mergeSort).mp hr)

/-- Claim C3: on an input whose flags are all false, after the stable sort
by timestamp, pass 1 flags position i exactly when the next position exists
and its altitude is at least 0.3 higher; the last position is never
flagged. -/
theorem claim_C3_pass1_flags (data : List GPSREC) (h : ∀ r ∈ data, r.uphill = false) :
    (∀ i : ℕ,
      ((pass1 (sortedByTimestamp data)).getD i defaultFix).uphill = true ↔
        (i + 1 < (sortedByTimestamp data).length ∧
          ((sortedByTimestamp data).getD (i + 1) defaultFix).altitude -
            ((sortedByTimestamp data).getD i defaultFix).altitude ≥
              point_to_point_elevation_threshold)) ∧
    ((pass1 (sortedByTimestamp data)).getD ((sortedByTimestamp data).length - 1)
      defaultFix).uphill = false := by
  have hs := sortedByTimestamp_uphill_false data h
  have key : ∀ i : ℕ,
      ((pass1 (sortedByTimestamp data)).getD i defaultFix).uphill = true ↔
        riseCond (sortedByTimestamp data) i := by
    intro i
    rw [pass1_getD]
    by_cases hc : riseCond (sortedByTimestamp data) i
    · rw [if_pos hc]; simpa using hc
    · rw [if_neg hc]
      rw [getD_uphill_false _ hs i]
      simpa using hc
  refine ⟨fun i => (key i).trans Iff.rfl, ?_⟩
  rcases Bool.eq_false_or_eq_true
      (((pass1 (sortedByTimestamp data)).getD ((sortedByTimestamp data).length - 1)
        defaultFix).uphill) with hb | hb
  · exfalso
    have := (key _).mp hb
    rw [riseCond] at this
    omega
  · exact hb

/-- Witness for claim C3 at the spec's synthetic three-point ascending
sequence (altitudes 0, 1, 2): the flag criterion instantiated at index 0,
and the last position unflagged. -/
theorem claim_C3_witness :
    ((((pass1 (sortedByTimestamp
        [⟨0, 0, 0, 0, false⟩, ⟨1, 0, 0, 1, false⟩, ⟨2, 0, 0, 2, false⟩])).getD 0
          defaultFix).uphill = true) ↔
      (0 + 1 < (sortedByTimestamp
          [⟨0, 0, 0, 0, false⟩, ⟨1, 0, 0, 1, false⟩, ⟨2, 0, 0, 2, false⟩]).length ∧
        ((sortedByTimestamp
          [⟨0, 0, 0, 0, false⟩, ⟨1, 0, 0, 1, false⟩, ⟨2, 0, 0, 2, false⟩]).getD (0 + 1)
            defaultFix).altitude -
          ((sortedByTimestamp
            [⟨0, 0, 0, 0, false⟩, ⟨1, 0, 0, 1, false⟩, ⟨2, 0, 0, 2, false⟩]).getD 0
              defaultFix).altitude ≥ point_to_point_elevation_threshold)) ∧
    ((pass1 (sortedByTimestamp
        [⟨0, 0, 0, 0, false⟩, ⟨1, 0, 0, 1, false⟩, ⟨2, 0, 0, 2, false⟩])).getD
      ((sortedByTimestamp
        [⟨0, 0, 0, 0, false⟩, ⟨1, 0, 0, 1, false⟩, ⟨2, 0, 0, 2, false⟩]).length - 1)
          defaultFix).uphill = false :=
  ⟨(claim_C3_pass1_flags _ (by decide)).1 0, (claim_C3_pass1_flags _ (by decide)).2⟩

/-! ### Pass 2 lemmas -/

lemma flushSeg_length : ∀ seg : List GPSREC, (flushSeg seg).length = seg.length
  | [] => rfl
  | s :: t => by
    simp only [flushSeg]
    split <;> simp

lemma flushSeg_map_fixCore : ∀ seg : List GPSREC,
    (flushSeg seg).map fixCore = seg.map fixCore
  | [] => rfl
  | s :: t => by
    simp only [flushSeg]
    split
    · rw [List.map_map]
      rfl
    · rfl

lemma flushSeg_getD (seg : List GPSREC) (k : ℕ) :
    (flushSeg seg).getD k defaultFix = seg.getD k defaultFix ∨
    (flushSeg seg).getD k defaultFix = clearUphill (seg.getD k defaultFix) := by
  cases seg with
  | nil => exact Or.inl rfl
  | cons s t =>
    simp only [flushSeg]
    split
    · by_cases hk : k < (s :: t).length
      · right
        rw [List.getD_eq_getElem _ _ (by simpa using hk), List.getD_eq_getElem _ _ hk,
          List.getElem_map]
      · right
        rw [List.getD_eq_default _ _ (by simpa using not_lt.mp hk),
          List.getD_eq_default _ _ (not_lt.mp hk)]
        rfl
    · exact Or.inl rfl

lemma pass2go_length : ∀ (l seg : List GPSREC),
    (pass2go seg l).length = seg.length + l.length
  | [], seg => by simp [pass2go]
  | r :: rest, seg => by
    simp only [pass2go]
    split
    · rw [pass2go_length rest (seg ++ [r])]
      simp only [List.length_append, List.length_cons, List.length_nil]
      omega
    · simp only [List.length_append, List.length_cons, List.length_nil, flushSeg_length,
        pass2go_length rest []]
      omega

lemma pass2go_map_fixCore : ∀ (l seg : List GPSREC),
    (pass2go seg l).map fixCore = (seg ++ l).map fixCore
  | [], seg => by simp [pass2go]
  | r :: rest, seg => by
    simp only [pass2go]
    split
    · rw [pass2go_map_fixCore rest (seg ++ [r]), List.append_assoc]
      rfl
    · simp only [List.map_append, List.map_cons, flushSeg_map_fixCore,
        pass2go_map_fixCore rest []]
      simp

lemma pass2go_getD : ∀ (l seg : List GPSREC) (k : ℕ),
    (pass2go seg l).getD k defaultFix = (seg ++ l).getD k defaultFix ∨
    (pass2go seg l).getD k defaultFix = clearUphill ((seg ++ l).getD k defaultFix)
  | [], seg, k => by
    rw [pass2go, List.append_nil]
    exact Or.inl rfl
  | r :: rest, seg, k => by
    simp only [pass2go]
    split
    · have hh := pass2go_getD rest (seg ++ [r]) k
      rwa [List.append_assoc, List.singleton_append] at hh
    · by_cases hk : k < seg.length
      · rw [List.getD_append _ _ _ _ (by rw [flushSeg_length]; exact hk),
          List.getD_append _ _ _ _ hk]
        exact flushSeg_getD seg k
      · push_neg at hk
        rw [List.getD_append_right _ _ _ _ (by rw [flushSeg_length]; exact hk),
          List.getD_append_right _ _ _ _ hk, flushSeg_length]
        rcases Nat.exists_eq_add_of_le hk with ⟨j, hj⟩
        subst hj
        rw [Nat.add_sub_cancel_left]
        cases j with
        | zero => exact Or.inl rfl
        | succ i =>
          simp only [List.getD_cons_succ]
          have hh := pass2go_getD rest [] i
          rwa [List.nil_append] at hh

lemma pass2go_uphill_mono (l seg : List GPSREC) (k : ℕ)
    (h : ((pass2go seg l).getD k defaultFix).uphill = true) :
    ((seg ++ l).getD k defaultFix).uphill = true := by
  rcases pass2go_getD l seg k with he | he
  · rwa [he] at h
  · rw [he] at h
    simp [clearUphill] at h

/-! ### Frame and ordering facts about detect_uphill -/

lemma tsLE_trans : ∀ a b c : GPSREC, tsLE a b → tsLE b c → tsLE a c := by
  intro a b c hab hbc
  simp only [tsLE, sort_by_timestamp, decide_eq_true_eq] at hab hbc ⊢
  exact le_trans hab hbc

lemma tsLE_total : ∀ a b : GPSREC, tsLE a b || tsLE b a := by
  intro a b
  simp only [tsLE, sort_by_timestamp, Bool.or_eq_true, decide_eq_true_eq]
  exact le_total _ _

lemma detect_map_fixCore (data : List GPSREC) :
    (detect_uphill data).map fixCore = (sortedByTimestamp data).map fixCore := by
  rw [detect_uphill, pass2go_map_fixCore, List.nil_append, pass1_map_fixCore]

lemma detect_length (data : List GPSREC) :
    (detect_uphill data).length = data.length := by
  have hh := congrArg List.length (detect_map_fixCore data)
  simp only [List.length_map] at hh
  rw [hh, sortedByTimestamp, List.length_mergeSort]

lemma detect_map_timestamp (data : List GPSREC) :
    (detect_uphill data).map (fun r => r.timestamp) =
      (sortedByTimestamp data).map (fun r => r.timestamp) := by
  have hh := congrArg (List.map (fun q : ℚ × ℚ × ℚ × ℚ => q.1)) (detect_map_fixCore data)
  simpa only [List.map_map] using hh

lemma detect_pairwise_timestamp (data : List GPSREC) :
    (detect_uphill data).Pairwise (fun a b => a.timestamp ≤ b.timestamp) := by
  have hsort : (sortedByTimestamp data).Pairwise (fun a b => tsLE a b = true) :=
    List.sorted_mergeSort tsLE_trans tsLE_total data
  have hsort2 : (sortedByTimestamp data).Pairwise
      (fun a b => a.timestamp ≤ b.timestamp) :=
    hsort.imp fun hab => by
      simpa only [tsLE, sort_by_timestamp, decide_eq_true_eq] using hab
  have h1 : ((detect_uphill data).map (fun r => r.timestamp)).Pairwise
      (fun a b : ℚ => a ≤ b) := by
    rw [detect_map_timestamp]
    exact List.pairwise_map.mpr hsort2
  exact List.pairwise_map.mp h1

/-- Claim C8: the Uphill Classifier returns exactly the fixes it was given
as a timestamp-sorted permutation, and only the uphill flag can change: the
multiset of (timestamp, longitude, latitude, altitude) cores is preserved
and the output is pairwise nondecreasing in timestamp. -/
theorem claim_C8_frame (data : List GPSREC) :
    ((detect_uphill data).map fixCore).Perm (data.map fixCore) ∧
    (detect_uphill data).Pairwise (fun a b => a.timestamp ≤ b.timestamp) := by
  constructor
  · rw [detect_map_fixCore, sortedByTimestamp]
    exact (List.mergeSort_perm data tsLE).map fixCore
  · exact detect_pairwise_timestamp data

lemma pass1_last_uphill_false (data : List GPSREC) (h : ∀ r ∈ data, r.uphill = false) :
    ((pass1 (sortedByTimestamp data)).getD ((sortedByTimestamp data).length - 1)
      defaultFix).uphill = false := by
  rw [pass1_getD, if_neg (by rw [riseCond]; omega)]
  exact getD_uphill_false _ (sortedByTimestamp_uphill_false data h) _

/-- Claim C10: on an input whose flags are all initially false, the last
fix of the classifier's sorted output (the one with the greatest timestamp)
always ends with uphill = false; consequently the missing end-of-sequence
flush of pass 2 can never see a nonempty trailing segment in the normal
pipeline. -/
theorem claim_C10_last_fix_false (data : List GPSREC)
    (h : ∀ r ∈ data, r.uphill = false) :
    ((detect_uphill data).getD ((detect_uphill data).length - 1)
      defaultFix).uphill = false := by
  rcases Bool.eq_false_or_eq_true
      (((detect_uphill data).getD ((detect_uphill data).length - 1)
        defaultFix).uphill) with hb | hb
  · exfalso
    rw [detect_uphill] at hb
    have hmono := pass2go_uphill_mono _ _ _ hb
    rw [List.nil_append] at hmono
    rw [pass2go_length, pass1_length, List.length_nil, Nat.zero_add] at hmono
    rw [pass1_last_uphill_false data h] at hmono
    exact Bool.false_ne_true hmono
  · exact hb

/-- Witness for claim C10: the all-false hypothesis discharged at a
concrete three-fix ascending input. -/
theorem claim_C10_witness :
    ((detect_uphill [⟨0, 0, 0, 0, false⟩, ⟨1, 0, 0, 1, false⟩, ⟨2, 0, 0, 2, false⟩]).getD
      ((detect_uphill [⟨0, 0, 0, 0, false⟩, ⟨1, 0, 0, 1, false⟩, ⟨2, 0, 0, 2, false⟩]).length - 1)
        defaultFix).uphill = false :=
  claim_C10_last_fix_false _ (by decide)

/-! ### Unfolding equations for pass 2, and the segment-run predicates -/

lemma pass2go_nil_eq (segment : List GPSREC) : pass2go segment [] = segment := rfl

lemma pass2go_cons_true (segment : List GPSREC) (r : GPSREC) (rest : List GPSREC)
    (hr : r.uphill = true) :
    pass2go segment (r :: rest) = pass2go (segment ++ [r]) rest := by
  simp only [pass2go, hr, if_true]

lemma pass2go_cons_false (segment : List GPSREC) (r : GPSREC) (rest : List GPSREC)
    (hr : r.uphill = false) :
    pass2go segment (r :: rest) = flushSeg segment ++ r :: pass2go [] rest := by
  simp only [pass2go, hr, Bool.false_eq_true, if_false]

lemma flushSeg_of_keep (s : GPSREC) (t : List GPSREC)
    (h : ¬ get_distance_between_locations s ((s :: t).getLast (List.cons_ne_nil s t)) * 1000 <
      significant_distance_of_elevation_threshold) :
    flushSeg (s :: t) = s :: t := by
  simp only [flushSeg]
  rw [if_neg h]

lemma flushSeg_of_drop (s : GPSREC) (t : List GPSREC)
    (h : get_distance_between_locations s ((s :: t).getLast (List.cons_ne_nil s t)) * 1000 <
      significant_distance_of_elevation_threshold) :
    flushSeg (s :: t) = (s :: t).map clearUphill := by
  simp only [flushSeg]
  rw [if_pos h]

lemma getLast_eq_getD (s : GPSREC) (t : List GPSREC) :
    (s :: t).getLast (List.cons_ne_nil s t) = (s :: t).getD ((s :: t).length - 1) defaultFix := by
  rw [List.getLast_eq_getElem, List.getD_eq_getElem]

lemma getD_shift (seg : List GPSREC) (r : GPSREC) (rest : List GPSREC) (t : ℕ) :
    (seg ++ r :: rest).getD (seg.length + 1 + t) defaultFix = rest.getD t defaultFix := by
  rw [List.getD_append_right _ _ _ _ (by omega)]
  have he : seg.length + 1 + t - seg.length = t + 1 := by omega
  rw [he, List.getD_cons_succ]

/-- Position k of the list m lies inside a maximal contiguous run [i, j] of
flagged records whose first-to-last great-circle distance, converted to
meters, reaches the 10 meter significance threshold. -/
def RetainedRun (m : List GPSREC) (k : ℕ) : Prop :=
  ∃ i j, i ≤ k ∧ k ≤ j ∧ j < m.length ∧
    (∀ t, i ≤ t → t ≤ j → (m.getD t defaultFix).uphill = true) ∧
    (i = 0 ∨ (m.getD (i - 1) defaultFix).uphill = false) ∧
    (j + 1 = m.length ∨ (m.getD (j + 1) defaultFix).uphill = false) ∧
    get_distance_between_locations (m.getD i defaultFix) (m.getD j defaultFix) * 1000 ≥
      significant_distance_of_elevation_threshold

/-- Position k of the list m lies inside a run of flagged records that
extends to the very end of the list: the trailing open segment, which pass
2 never flushes. -/
def TrailingRun (m : List GPSREC) (k : ℕ) : Prop :=
  ∃ i, i ≤ k ∧ ∀ t, i ≤ t → t < m.length → (m.getD t defaultFix).uphill = true

/-- Soundness invariant of pass 2: whenever the accumulated segment is all
flagged, every record that is still flagged in the output lies either in a
maximal flagged run whose endpoints are at least the significance threshold
apart, or in a run that reaches the end of the scan (the unflushed trailing
segment). -/
lemma pass2go_run_sound : ∀ (l seg : List GPSREC),
    (∀ r ∈ seg, r.uphill = true) → ∀ k : ℕ, k < seg.length + l.length →
    ((pass2go seg l).getD k defaultFix).uphill = true →
    RetainedRun (seg ++ l) k ∨ TrailingRun (seg ++ l) k
  | [], seg, hseg, k, hk, hout => by
    right
    rw [List.append_nil]
    refine ⟨0, Nat.zero_le k, fun t ht1 ht2 => ?_⟩
    rw [List.getD_eq_getElem _ _ ht2]
    exact hseg _ (List.getElem_mem ht2)
  | r :: rest, seg, hseg, k, hk, hout => by
    by_cases hr : r.uphill = true
    · rw [pass2go_cons_true seg r rest hr] at hout
      have hseg2 : ∀ x ∈ seg ++ [r], x.uphill = true := by
        intro x hx
        rcases List.mem_append.mp hx with hx | hx
        · exact hseg x hx
        · rw [List.mem_singleton.mp hx]; exact hr
      have hk2 : k < (seg ++ [r]).length + rest.length := by
        simp only [List.length_append, List.length_cons, List.length_nil] at hk ⊢
        omega
      have hres := pass2go_run_sound rest (seg ++ [r]) hseg2 k hk2 hout
      rwa [List.append_assoc, List.singleton_append] at hres
    · have hrf : r.uphill = false := by revert hr; cases r.uphill <;> simp
      rw [pass2go_cons_false seg r rest hrf] at hout
      rcases Nat.lt_trichotomy k seg.length with hks | hks | hks
      · rw [List.getD_append _ _ _ _ (by rw [flushSeg_length]; exact hks)] at hout
        cases seg with
        | nil => simp at hks
        | cons s t =>
          by_cases hd : get_distance_between_locations s
              ((s :: t).getLast (List.cons_ne_nil s t)) * 1000 <
              significant_distance_of_elevation_threshold
          · exfalso
            rw [flushSeg_of_drop s t hd] at hout
            rw [List.getD_eq_getElem _ _ (by simpa using hks), List.getElem_map] at hout
            simp [clearUphill] at hout
          · left
            refine ⟨0, (s :: t).length - 1, Nat.zero_le k,
              by simp only [List.length_cons] at hks ⊢; omega,
              by simp only [List.length_append, List.length_cons]; omega,
              ?_, Or.inl rfl, ?_, ?_⟩
            · intro u hu1 hu2
              have hu3 : u < (s :: t).length := by
                simp only [List.length_cons] at hu2 ⊢
                omega
              rw [List.getD_append _ _ _ _ hu3, List.getD_eq_getElem _ _ hu3]
              exact hseg _ (List.getElem_mem hu3)
            · right
              have he : (s :: t).length - 1 + 1 = (s :: t).length := by
                simp only [List.length_cons]
                omega
              rw [he, List.getD_append_right _ _ _ _ (le_refl _), Nat.sub_self,
                List.getD_cons_zero]
              exact hrf
            · have h0 : ((s :: t) ++ r :: rest).getD 0 defaultFix = s := by
                rw [List.getD_append _ _ _ _ (by simp), List.getD_cons_zero]
              have hl : ((s :: t) ++ r :: rest).getD ((s :: t).length - 1) defaultFix =
                  (s :: t).getLast (List.cons_ne_nil s t) := by
                rw [List.getD_append _ _ _ _ (by simp only [List.length_cons]; omega),
                  getLast_eq_getD]
              rw [h0, hl]
              exact not_lt.mp hd
      · exfalso
        rw [List.getD_append_right _ _ _ _ (by rw [flushSeg_length]; omega),
          flushSeg_length] at hout
        have he : k - seg.length = 0 := by omega
        rw [he, List.getD_cons_zero, hrf] at hout
        exact Bool.false_ne_true hout
      · rw [List.getD_append_right _ _ _ _ (by rw [flushSeg_length]; omega),
          flushSeg_length] at hout
        have he : k - seg.length = (k - seg.length - 1) + 1 := by omega
        rw [he, List.getD_cons_succ] at hout
        have hkr : k - seg.length - 1 < rest.length := by
          simp only [List.length_cons] at hk
          omega
        have hres := pass2go_run_sound rest []
          (by intro x hx; exact absurd hx (List.not_mem_nil x))
          (k - seg.length - 1) (by simpa using hkr) hout
        rw [List.nil_append] at hres
        rcases hres with ⟨i2, j2, hi2k, hkj2, hj2, hflags, hleft, hright, hdist⟩ |
          ⟨i2, hi2k, hflags⟩
        · left
          refine ⟨seg.length + 1 + i2, seg.length + 1 + j2, by omega, by omega,
            by simp only [List.length_append, List.length_cons]; omega, ?_, ?_, ?_, ?_⟩
          · intro u hu1 hu2
            have hu3 : u = seg.length + 1 + (u - seg.length - 1) := by omega
            rw [hu3, getD_shift]
            exact hflags _ (by omega) (by omega)
          · right
            by_cases hi20 : i2 = 0
            · have he2 : seg.length + 1 + i2 - 1 = seg.length := by omega
              rw [he2, List.getD_append_right _ _ _ _ (le_refl _), Nat.sub_self,
                List.getD_cons_zero]
              exact hrf
            · rcases hleft with h0 | hfalse
              · exact absurd h0 hi20
              · have he2 : seg.length + 1 + i2 - 1 = seg.length + 1 + (i2 - 1) := by omega
                rw [he2, getD_shift]
                exact hfalse
          · rcases hright with hend | hfalse
            · left
              simp only [List.length_append, List.length_cons]
              omega
            · right
              have he2 : seg.length + 1 + j2 + 1 = seg.length + 1 + (j2 + 1) := by omega
              rw [he2, getD_shift]
              exact hfalse
          · rw [getD_shift, getD_shift]
            exact hdist
        · right
          refine ⟨seg.length + 1 + i2, by omega, ?_⟩
          intro u hu1 hu2
          have hu3 : u = seg.length + 1 + (u - seg.length - 1) := by omega
          rw [hu3, getD_shift]
          refine hflags _ (by omega) ?_
          simp only [List.length_append, List.length_cons] at hu2
          omega

/-- Claim C1: starting from an input whose flags are all false, any fix
still flagged at the end of detect_uphill lies inside a maximal contiguous
run of pass-1-flagged fixes of the sorted sequence whose first-to-last
great-circle distance reaches the 10 meter significance threshold. -/
theorem claim_C1_significance_invariant (data : List GPSREC)
    (h : ∀ r ∈ data, r.uphill = false) :
    ∀ k : ℕ, ((detect_uphill data).getD k defaultFix).uphill = true →
      RetainedRun (pass1 (sortedByTimestamp data)) k := by
  intro k hk
  rw [detect_uphill] at hk
  have hklt : k < (pass1 (sortedByTimestamp data)).length := by
    by_contra hge
    push_neg at hge
    rw [List.getD_eq_default _ _ (by rw [pass2go_length]; simpa using hge)] at hk
    exact Bool.false_ne_true hk
  have hres := pass2go_run_sound (pass1 (sortedByTimestamp data)) []
    (by intro x hx; exact absurd hx (List.not_mem_nil x)) k (by simpa using hklt) hk
  rw [List.nil_append] at hres
  rcases hres with hret | ⟨i, hik, hflags⟩
  · exact hret
  · exfalso
    have hlen : (pass1 (sortedByTimestamp data)).length =
        (sortedByTimestamp data).length := pass1_length _
    have htrue := hflags ((pass1 (sortedByTimestamp data)).length - 1) (by omega) (by omega)
    have hfalse := pass1_last_uphill_false data h
    rw [← hlen] at hfalse
    exact absurd (htrue.symm.trans hfalse) (by decide)

/-! ### Concrete fixes used in the evaluations -/

/-- Concrete fix at the origin, altitude 0, timestamp 0, unflagged. -/
def fixA : GPSREC := ⟨0, 0, 0, 0, false⟩

/-- Concrete fix at longitude 180, altitude 1/2, timestamp 1, unflagged. -/
def fixB : GPSREC := ⟨1, 180, 0, 1/2, false⟩

/-- Concrete fix at longitude 180, altitude 1, timestamp 2, unflagged. -/
def fixC : GPSREC := ⟨2, 180, 0, 1, false⟩

/-- fixA with its flag set, as produced by pass 1. -/
def fixA2 : GPSREC := ⟨0, 0, 0, 0, true⟩

/-- fixB with its flag set, as produced by pass 1. -/
def fixB2 : GPSREC := ⟨1, 180, 0, 1/2, true⟩

lemma flushSeg_nil : flushSeg [] = [] := rfl

lemma detect_eval_ABC : detect_uphill [fixA, fixB, fixC] = [fixA2, fixB2, fixC] := by
  have hsorted : sortedByTimestamp [fixA, fixB, fixC] = [fixA, fixB, fixC] :=
    List.mergeSort_of_sorted (by decide)
  have hp1 : pass1 [fixA, fixB, fixC] = [fixA2, fixB2, fixC] := by
    norm_num [pass1, fixA, fixB, fixC, fixA2, fixB2, point_to_point_elevation_threshold]
  rw [detect_uphill, hsorted, hp1, pass2go_cons_true _ _ _ rfl,
    pass2go_cons_true _ _ _ rfl, pass2go_cons_false _ _ _ rfl, pass2go_nil_eq]
  show flushSeg [fixA2, fixB2] ++ [fixC] = [fixA2, fixB2, fixC]
  have hlast : [fixA2, fixB2].getLast (List.cons_ne_nil _ _) = fixB2 := rfl
  rw [flushSeg_of_keep fixA2 [fixB2]
    (by rw [hlast, dist_antipodal fixA2 fixB2 rfl rfl rfl rfl]; exact antipodal_not_small)]
  rfl

/-- Witness for claim C1: in the concrete three-fix run (two ascending
steps whose endpoints are antipodal, hence farther than 10 meters apart)
the first output fix is flagged, and the theorem places it in a retained
significant run. -/
theorem claim_C1_witness :
    RetainedRun (pass1 (sortedByTimestamp [fixA, fixB, fixC])) 0 :=
  claim_C1_significance_invariant [fixA, fixB, fixC] (by decide) 0
    (by rw [detect_eval_ABC]; rfl)

/-! ### Claim C2: flush behaviour of pass 2 -/

/-- A single fix that arrives already flagged: timestamp 0, at the origin. -/
def fixD : GPSREC := ⟨0, 0, 0, 0, true⟩

/-- An unflagged fix used as a false boundary. -/
def fixE : GPSREC := ⟨1, 0, 0, 0, false⟩

lemma detect_eval_single_true : detect_uphill [fixD] = [fixD] := by
  have hsorted : sortedByTimestamp [fixD] = [fixD] := by
    rw [sortedByTimestamp, List.mergeSort_singleton]
  rw [detect_uphill, hsorted]
  show pass2go [] (pass1 [fixD]) = [fixD]
  rw [show pass1 [fixD] = [fixD] from rfl, pass2go_cons_true _ _ _ rfl, pass2go_nil_eq,
    List.nil_append]

/-- Counterexample to claim C2 as stated: on the one-element input whose
fix arrives flagged, the scan ends with a non-empty open segment whose
first-to-last distance (0 meters) is far below the threshold, yet the fix
keeps uphill = true — the end of the sequence is not treated as a false
boundary and no flush happens there. -/
theorem claim_C2_counterexample :
    ((detect_uphill [fixD]).getD 0 defaultFix).uphill = true ∧
    get_distance_between_locations fixD fixD * 1000 <
      significant_distance_of_elevation_threshold := by
  constructor
  · rw [detect_eval_single_true]; rfl
  · rw [dist_self_coords fixD fixD rfl rfl]
    exact zero_dist_small

/-- Claim C2 (amended): in pass 2 a non-empty accumulated segment is
flushed exactly when a fix with uphill = false is encountered — the
distance between the segment's first and last fix is converted to meters
(times 1000) and every fix of the segment is reset to uphill = false when
it is below 10.0 meters, while the segment is emitted unchanged when it is
not — but at the end of the sequence no flush happens: a trailing segment
still open when the scan ends is returned with its flags unchanged. -/
theorem claim_C2_amended_flush (seg : List GPSREC) (r : GPSREC) (rest : List GPSREC)
    (hne : seg ≠ []) (hr : r.uphill = false) :
    ((get_distance_between_locations (seg.getD 0 defaultFix)
        (seg.getD (seg.length - 1) defaultFix) * 1000 <
          significant_distance_of_elevation_threshold →
        pass2go seg (r :: rest) = seg.map clearUphill ++ r :: pass2go [] rest) ∧
      (get_distance_between_locations (seg.getD 0 defaultFix)
        (seg.getD (seg.length - 1) defaultFix) * 1000 ≥
          significant_distance_of_elevation_threshold →
        pass2go seg (r :: rest) = seg ++ r :: pass2go [] rest)) ∧
    pass2go seg [] = seg := by
  obtain ⟨s, t, rfl⟩ : ∃ s t, seg = s :: t := by
    cases seg with
    | nil => exact absurd rfl hne
    | cons s t => exact ⟨s, t, rfl⟩
  refine ⟨⟨?_, ?_⟩, rfl⟩
  · intro hlt
    rw [List.getD_cons_zero, ← getLast_eq_getD] at hlt
    rw [pass2go_cons_false _ _ _ hr, flushSeg_of_drop s t hlt]
  · intro hge
    rw [List.getD_cons_zero, ← getLast_eq_getD] at hge
    rw [pass2go_cons_false _ _ _ hr, flushSeg_of_keep s t (not_lt.mpr hge)]

/-- Witness for the amended claim C2: the flagged fix at the origin is
flushed, and reset, by the following unflagged fix, and a segment still
open at the end of the list is left as is. -/
theorem claim_C2_witness :
    pass2go [fixD] [fixE] = [fixD].map clearUphill ++ fixE :: pass2go [] [] ∧
    pass2go [fixD] [] = [fixD] :=
  ⟨(claim_C2_amended_flush [fixD] fixE [] (by simp) rfl).1.1
      (by
        have h1 : ([fixD] : List GPSREC).getD 0 defaultFix = fixD := rfl
        have h2 : ([fixD] : List GPSREC).getD (([fixD] : List GPSREC).length - 1)
            defaultFix = fixD := rfl
        rw [h1, h2, dist_self_coords fixD fixD rfl rfl]
        exact zero_dist_small),
    (claim_C2_amended_flush [fixD] fixE [] (by simp) rfl).2⟩

/-! ### Claim C7: idempotence of the classifier -/

lemma fixCore_clearUphill (x : GPSREC) : fixCore (clearUphill x) = fixCore x := rfl

lemma clearUphill_of_false (x : GPSREC) (hx : x.uphill = false) : clearUphill x = x := by
  cases x
  simp only [clearUphill]
  simp_all

lemma altitude_eq_of_fixCore (x y : GPSREC) (hc : fixCore x = fixCore y) :
    x.altitude = y.altitude := congrArg (fun q => q.2.2.2) hc

lemma eq_set_uphill_of_fixCore (x y : GPSREC) (b : Bool) (hc : fixCore x = fixCore y) :
    ({ x with uphill := b } : GPSREC) = { y with uphill := b } := by
  cases x; cases y
  simp only [fixCore, Prod.mk.injEq] at hc
  simp only [GPSREC.mk.injEq]
  exact ⟨hc.1, hc.2.1, hc.2.2.1, hc.2.2.2, trivial⟩

lemma pass1_getD_fixCore (l : List GPSREC) (k : ℕ) :
    fixCore ((pass1 l).getD k defaultFix) = fixCore (l.getD k defaultFix) := by
  rw [pass1_getD]
  split <;> rfl

lemma pass2go_getD_fixCore (l seg : List GPSREC) (k : ℕ) :
    fixCore ((pass2go seg l).getD k defaultFix) =
      fixCore ((seg ++ l).getD k defaultFix) := by
  rcases pass2go_getD l seg k with he | he
  · rw [he]
  · rw [he, fixCore_clearUphill]

lemma list_eq_of_getD (l1 l2 : List GPSREC) (hlen : l1.length = l2.length)
    (h : ∀ k, k < l1.length → l1.getD k defaultFix = l2.getD k defaultFix) : l1 = l2 := by
  apply List.ext_getElem hlen
  intro i h1 h2
  have hh := h i h1
  rwa [List.getD_eq_getElem _ _ h1, List.getD_eq_getElem _ _ h2] at hh

/-- Claim C7 (amended): the two-pass classification is idempotent on inputs
whose flags start all false (in particular on anything coming out of the
normal parser/deduplicator pipeline); rerunning detect_uphill on its own
output then changes nothing.  Without that restriction idempotence fails,
see the counterexample. -/
theorem claim_C7_amended_idempotent (data : List GPSREC)
    (h : ∀ r ∈ data, r.uphill = false) :
    detect_uphill (detect_uphill data) = detect_uphill data := by
  have hsorted_y : sortedByTimestamp (detect_uphill data) = detect_uphill data :=
    List.mergeSort_of_sorted ((detect_pairwise_timestamp data).imp (fun hab => by
      simp only [tsLE, sort_by_timestamp, decide_eq_true_eq]
      exact hab))
  have hlen_y : (detect_uphill data).length = (sortedByTimestamp data).length := by
    rw [detect_length, sortedByTimestamp, List.length_mergeSort]
  have hcore : ∀ k, fixCore ((detect_uphill data).getD k defaultFix) =
      fixCore ((sortedByTimestamp data).getD k defaultFix) := by
    intro k
    rw [detect_uphill, pass2go_getD_fixCore, List.nil_append, pass1_getD_fixCore]
  have halt : ∀ k, ((detect_uphill data).getD k defaultFix).altitude =
      ((sortedByTimestamp data).getD k defaultFix).altitude :=
    fun k => altitude_eq_of_fixCore _ _ (hcore k)
  have hrc : ∀ k, riseCond (detect_uphill data) k ↔
      riseCond (sortedByTimestamp data) k := by
    intro k
    unfold riseCond
    rw [hlen_y, halt, halt]
  have hsflags : ∀ k, ((sortedByTimestamp data).getD k defaultFix).uphill = false :=
    getD_uphill_false _ (sortedByTimestamp_uphill_false data h)
  have hp1 : pass1 (detect_uphill data) = pass1 (sortedByTimestamp data) := by
    apply list_eq_of_getD
    · rw [pass1_length, pass1_length, hlen_y]
    · intro k hk
      rw [pass1_getD, pass1_getD]
      by_cases hc : riseCond (sortedByTimestamp data) k
      · rw [if_pos ((hrc k).mpr hc), if_pos hc]
        exact eq_set_uphill_of_fixCore _ _ true (hcore k)
      · rw [if_neg (fun hx => hc ((hrc k).mp hx)), if_neg hc]
        rcases pass2go_getD (pass1 (sortedByTimestamp data)) [] k with he | he
        · rw [detect_uphill, he, List.nil_append, pass1_getD, if_neg hc]
        · rw [detect_uphill, he, List.nil_append, pass1_getD, if_neg hc]
          exact clearUphill_of_false _ (hsflags k)
  rw [show detect_uphill (detect_uphill data) =
      pass2go [] (pass1 (sortedByTimestamp (detect_uphill data))) from rfl,
    hsorted_y, hp1]
  rw [detect_uphill]

/-- Witness for the amended claim C7 at a concrete all-false input. -/
theorem claim_C7_witness :
    detect_uphill (detect_uphill [fixA, fixB, fixC]) = detect_uphill [fixA, fixB, fixC] :=
  claim_C7_amended_idempotent [fixA, fixB, fixC] (by decide)

/-- Fix 0 of the pre-flagged counterexample track: origin, flagged. -/
def gFix0 : GPSREC := ⟨0, 0, 0, 0, true⟩

/-- Fix 1: origin, altitude 0, unflagged. -/
def gFix1 : GPSREC := ⟨1, 0, 0, 0, false⟩

/-- Fix 2: longitude 180, altitude 1/2, unflagged. -/
def gFix2 : GPSREC := ⟨2, 180, 0, 1/2, false⟩

/-- Fix 3: origin, altitude 1, flagged. -/
def gFix3 : GPSREC := ⟨3, 0, 0, 1, true⟩

/-- Fix 4: origin, altitude 1, unflagged. -/
def gFix4 : GPSREC := ⟨4, 0, 0, 1, false⟩

/-- gFix1 as flagged by pass 1. -/
def gFix1t : GPSREC := ⟨1, 0, 0, 0, true⟩

/-- gFix2 as flagged by pass 1. -/
def gFix2t : GPSREC := ⟨2, 180, 0, 1/2, true⟩

/-- gFix0 after its segment is reset. -/
def gFix0f : GPSREC := ⟨0, 0, 0, 0, false⟩

/-- gFix3 after its segment is reset. -/
def gFix3f : GPSREC := ⟨3, 0, 0, 1, false⟩

lemma detect_eval_preflagged :
    detect_uphill [gFix0, gFix1, gFix2, gFix3, gFix4] =
      [gFix0f, gFix1, gFix2, gFix3f, gFix4] := by
  have hsorted : sortedByTimestamp [gFix0, gFix1, gFix2, gFix3, gFix4] =
      [gFix0, gFix1, gFix2, gFix3, gFix4] := List.mergeSort_of_sorted (by decide)
  have hp1 : pass1 [gFix0, gFix1, gFix2, gFix3, gFix4] =
      [gFix0, gFix1t, gFix2t, gFix3, gFix4] := by
    norm_num [pass1, gFix0, gFix1, gFix2, gFix3, gFix4, gFix1t, gFix2t,
      point_to_point_elevation_threshold]
  rw [detect_uphill, hsorted, hp1, pass2go_cons_true _ _ _ rfl,
    pass2go_cons_true _ _ _ rfl, pass2go_cons_true _ _ _ rfl,
    pass2go_cons_true _ _ _ rfl, pass2go_cons_false _ _ _ rfl, pass2go_nil_eq]
  show flushSeg [gFix0, gFix1t, gFix2t, gFix3] ++ [gFix4] =
    [gFix0f, gFix1, gFix2, gFix3f, gFix4]
  have hlast : [gFix0, gFix1t, gFix2t, gFix3].getLast (List.cons_ne_nil _ _) = gFix3 := rfl
  rw [flushSeg_of_drop gFix0 [gFix1t, gFix2t, gFix3]
    (by rw [hlast, dist_self_coords gFix0 gFix3 rfl rfl]; exact zero_dist_small)]
  rfl

lemma detect_eval_cleared :
    detect_uphill [gFix0f, gFix1, gFix2, gFix3f, gFix4] =
      [gFix0f, gFix1t, gFix2t, gFix3f, gFix4] := by
  have hsorted : sortedByTimestamp [gFix0f, gFix1, gFix2, gFix3f, gFix4] =
      [gFix0f, gFix1, gFix2, gFix3f, gFix4] := List.mergeSort_of_sorted (by decide)
  have hp1 : pass1 [gFix0f, gFix1, gFix2, gFix3f, gFix4] =
      [gFix0f, gFix1t, gFix2t, gFix3f, gFix4] := by
    norm_num [pass1, gFix0f, gFix1, gFix2, gFix3f, gFix4, gFix1t, gFix2t,
      point_to_point_elevation_threshold]
  rw [detect_uphill, hsorted, hp1]
  have hflush : flushSeg [gFix1t, gFix2t] = [gFix1t, gFix2t] := by
    have hlast : [gFix1t, gFix2t].getLast (List.cons_ne_nil _ _) = gFix2t := rfl
    exact flushSeg_of_keep _ _
      (by rw [hlast, dist_antipodal gFix1t gFix2t rfl rfl rfl rfl]
          exact antipodal_not_small)
  have hinner2 : pass2go [] [gFix4] = [gFix4] := by
    rw [pass2go_cons_false _ _ _ rfl, flushSeg_nil, pass2go_nil_eq, List.nil_append]
  have hinner : pass2go [] [gFix1t, gFix2t, gFix3f, gFix4] =
      [gFix1t, gFix2t] ++ gFix3f :: [gFix4] := by
    rw [pass2go_cons_true _ _ _ rfl, pass2go_cons_true _ _ _ rfl,
      pass2go_cons_false _ _ _ rfl, hinner2]
    show flushSeg [gFix1t, gFix2t] ++ gFix3f :: [gFix4] = _
    rw [hflush]
  rw [pass2go_cons_false _ _ _ rfl, hinner, flushSeg_nil, List.nil_append]
  rfl

/-- Counterexample to claim C7 as stated: the five-fix track below arrives
with two fixes pre-flagged; the classifier's first run clears every flag
(the merged segment loops back to the origin, under 10 meters end to end),
but a second run on that output re-flags the antipodal middle pair, so the
flag assignment is not reproduced. -/
theorem claim_C7_counterexample :
    (detect_uphill (detect_uphill [gFix0, gFix1, gFix2, gFix3, gFix4])).map GPSREC.uphill ≠
      (detect_uphill [gFix0, gFix1, gFix2, gFix3, gFix4]).map GPSREC.uphill := by
  rw [detect_eval_preflagged, detect_eval_cleared]
  decide
